import Mathlib

/-!
Verification of the rbAI behavioral scoring pipeline and code execution
service against their natural-language specification.

The Python sources are shallowly embedded: Python floats become `ℚ`
(exact rational arithmetic), Python strings become `List Char`, and the
stateful Docker-execution calls are abstracted as per-test outcome values
fed to the (pure) aggregation loops that the source defines.
-/

namespace RbAI

/-! ## Behavior engine: data model (metrics.py, data_fusion.py) -/

/-- Python's binary `max` (kernel-computable form). -/
def qmax (a b : ℚ) : ℚ := if a ≤ b then b else a

/-- Python's binary `min` (kernel-computable form). -/
def qmin (a b : ℚ) : ℚ := if b ≤ a then b else a

theorem qmax_eq_max (a b : ℚ) : qmax a b = max a b := by
  unfold qmax; split_ifs with h
  · exact (max_eq_right h).symm
  · exact (max_eq_left (le_of_not_le h)).symm

theorem qmin_eq_min (a b : ℚ) : qmin a b = min a b := by
  unfold qmin; split_ifs with h
  · exact (min_eq_right h).symm
  · exact (min_eq_left (le_of_not_le h)).symm

/-- Raw per-session telemetry (`SessionMetrics` dataclass).  Numeric fields
are modelled as `ℚ`; the integer-valued fields of the Python dataclass take
integer values of `ℚ` in realizable inputs, but no theorem below needs that
restriction. -/
structure SessionMetrics where
  duration_minutes : ℚ
  total_keystrokes : ℚ
  total_run_attempts : ℚ
  total_idle_minutes : ℚ
  focus_violation_count : ℚ
  net_code_change : ℚ
  last_edit_size_chars : ℚ
  last_run_interval_seconds : ℚ
  is_semantic_change : Bool
  current_idle_duration : ℚ
  is_window_focused : Bool
  last_run_was_error : Bool
  recent_burst_size_chars : ℚ
deriving DecidableEq, Repr

/-- Provenance labels of the fusion engine (`ProvenanceState` enum). -/
inductive ProvenanceState where
  | AUTHENTIC_REFACTORING
  | AMBIGUOUS_EDIT
  | SUSPECTED_PASTE
  | SPAMMING
deriving DecidableEq, Repr

/-- Cognitive labels of the fusion engine (`CognitiveState` enum). -/
inductive CognitiveState where
  | ACTIVE
  | REFLECTIVE_PAUSE
  | PASSIVE_IDLE
  | DISENGAGEMENT
deriving DecidableEq, Repr

/-- Output record of `DataFusionEngine.analyze` (`FusionInsights`). -/
structure FusionInsights where
  provenance_state : ProvenanceState
  cognitive_state : CognitiveState
  effective_kpm : ℚ
  effective_ad : ℚ
  effective_ir : ℚ
  integrity_penalty : ℚ
deriving DecidableEq, Repr

/-! ## DataFusionEngine.analyze (data_fusion.py, lines 253-448)

The method body is a straight-line sequence of conditional updates; each
intermediate value depends only on the input metrics, so the embedding
factors it into one definition per intermediate. -/

/-- `raw_kpm = total_keystrokes / duration_minutes if duration_minutes > 0 else 0`. -/
def raw_kpm (m : SessionMetrics) : ℚ :=
  if 0 < m.duration_minutes then m.total_keystrokes / m.duration_minutes else 0

/-- `keystroke_to_insertion_ratio` (guarded division, data_fusion.py line 324). -/
def keystroke_to_insertion_ratio (m : SessionMetrics) : ℚ :=
  if 0 < m.last_edit_size_chars then
    m.recent_burst_size_chars / m.last_edit_size_chars
  else 0

/-- Condition of the large-insertion suspected-paste branch
(data_fusion.py lines 321, 334-336). -/
def largePasteCond (m : SessionMetrics) : Prop :=
  30 < m.last_edit_size_chars ∧
    keystroke_to_insertion_ratio m < 1/5 ∧
    0 < m.focus_violation_count ∧
    50 < m.last_edit_size_chars

instance (m : SessionMetrics) : Decidable (largePasteCond m) := by
  unfold largePasteCond; infer_instance

/-- Provenance label after the large-insertion logic tree
(data_fusion.py lines 321-349). -/
def provenance1 (m : SessionMetrics) : ProvenanceState :=
  if 30 < m.last_edit_size_chars then
    if keystroke_to_insertion_ratio m < 1/5 ∧ 0 < m.focus_violation_count ∧
        50 < m.last_edit_size_chars then
      ProvenanceState.SUSPECTED_PASTE
    else if 4/5 < keystroke_to_insertion_ratio m then
      ProvenanceState.AUTHENTIC_REFACTORING
    else
      ProvenanceState.AMBIGUOUS_EDIT
  else ProvenanceState.AUTHENTIC_REFACTORING

/-- Integrity penalty after the large-insertion logic tree. -/
def integrity1 (m : SessionMetrics) : ℚ :=
  if largePasteCond m then 1/2 else 0

/-- `efficiency_ratio` (data_fusion.py line 354). -/
def efficiency_ratio (m : SessionMetrics) : ℚ :=
  if 50 < m.total_keystrokes then m.net_code_change / m.total_keystrokes else 1

/-- Condition of the bulk-paste fallback (data_fusion.py lines 365-368). -/
def bulkPasteCond (m : SessionMetrics) : Prop :=
  200 < m.net_code_change ∧
    m.total_keystrokes < m.net_code_change * (3/10) ∧
    1 < m.focus_violation_count ∧
    provenance1 m ≠ ProvenanceState.SUSPECTED_PASTE ∧
    provenance1 m ≠ ProvenanceState.SPAMMING

instance (m : SessionMetrics) : Decidable (bulkPasteCond m) := by
  unfold bulkPasteCond; infer_instance

/-- Provenance label after the bulk-paste fallback. -/
def provenance2 (m : SessionMetrics) : ProvenanceState :=
  if bulkPasteCond m then ProvenanceState.SUSPECTED_PASTE else provenance1 m

/-- Integrity penalty after the bulk-paste fallback. -/
def integrity2 (m : SessionMetrics) : ℚ :=
  if bulkPasteCond m then 1/2 else integrity1 m

/-- First spam condition: `total_keystrokes > 200 and efficiency_ratio < 0.05`. -/
def spamCond1 (m : SessionMetrics) : Prop :=
  200 < m.total_keystrokes ∧ efficiency_ratio m < 1/20

instance (m : SessionMetrics) : Decidable (spamCond1 m) := by
  unfold spamCond1; infer_instance

/-- `is_burst_typing` (data_fusion.py line 361): burst size in `[50, 100]`. -/
def isBurstTyping (m : SessionMetrics) : Prop :=
  50 ≤ m.recent_burst_size_chars ∧ m.recent_burst_size_chars ≤ 100

instance (m : SessionMetrics) : Decidable (isBurstTyping m) := by
  unfold isBurstTyping; infer_instance

/-- Second spam condition: burst typing with `efficiency_ratio < 0.15`. -/
def spamCond2 (m : SessionMetrics) : Prop :=
  isBurstTyping m ∧ efficiency_ratio m < 3/20

instance (m : SessionMetrics) : Decidable (spamCond2 m) := by
  unfold spamCond2; infer_instance

/-- `effective_kpm` after the spam check (data_fusion.py lines 374-385). -/
def effective_kpm (m : SessionMetrics) : ℚ :=
  if spamCond1 m then 0
  else if spamCond2 m then raw_kpm m * (1/2)
  else raw_kpm m

/-- Final provenance label after the spam check. -/
def provenance3 (m : SessionMetrics) : ProvenanceState :=
  if spamCond1 m then ProvenanceState.SPAMMING
  else if spamCond2 m then ProvenanceState.SPAMMING
  else provenance2 m

/-- `effective_ad` (data_fusion.py line 391). -/
def effective_ad (m : SessionMetrics) : ℚ :=
  if 0 < m.duration_minutes then m.total_run_attempts / m.duration_minutes else 0

/-- Cognitive-state classification (data_fusion.py lines 411-436). -/
def cognitiveState (m : SessionMetrics) : CognitiveState :=
  if 30 < m.current_idle_duration then
    if ¬ m.is_window_focused then CognitiveState.DISENGAGEMENT
    else if m.last_run_was_error then CognitiveState.REFLECTIVE_PAUSE
    else CognitiveState.PASSIVE_IDLE
  else CognitiveState.ACTIVE

/-- `adjusted_idle_minutes`: the current idle episode is excluded (floored at
0) exactly in the reflective-pause branch (data_fusion.py lines 412, 431-432). -/
def adjusted_idle_minutes (m : SessionMetrics) : ℚ :=
  if 30 < m.current_idle_duration ∧ m.is_window_focused ∧ m.last_run_was_error then
    qmax 0 (m.total_idle_minutes - m.current_idle_duration / 60)
  else m.total_idle_minutes

/-- `effective_ir` (data_fusion.py line 438). -/
def effective_ir (m : SessionMetrics) : ℚ :=
  if 0 < m.duration_minutes then adjusted_idle_minutes m / m.duration_minutes else 0

/-- `DataFusionEngine.analyze` assembled from the intermediates above. -/
def analyze (m : SessionMetrics) : FusionInsights where
  provenance_state := provenance3 m
  cognitive_state := cognitiveState m
  effective_kpm := effective_kpm m
  effective_ad := effective_ad m
  effective_ir := effective_ir m
  integrity_penalty := integrity2 m

/-! ## CESCalculator (ces_calculator.py) -/

/-- `CESCalculator._normalize`: min-max normalization clamped to `[0, 1]`,
with a zero-span guard (ces_calculator.py lines 204-222). -/
def pyNormalize (value minv maxv : ℚ) : ℚ :=
  if maxv - minv = 0 then 0
  else qmax 0 (qmin 1 ((value - minv) / (maxv - minv)))

/-- `CESCalculator._get_label` (ces_calculator.py lines 224-237). -/
def getLabel (score : ℚ) : String :=
  if 1/2 < score then "High Engagement"
  else if 1/5 < score then "Moderate Engagement"
  else if 0 < score then "Low Engagement"
  else "Disengaged/At-Risk"

/-- Round-half-to-even on `ℚ`, the rounding mode of Python's `round`. -/
def roundHalfEven (q : ℚ) : ℤ :=
  if q - Int.floor q < 1/2 then Int.floor q
  else if 1/2 < q - Int.floor q then Int.floor q + 1
  else if Int.floor q % 2 = 0 then Int.floor q
  else Int.floor q + 1

/-- Python's `round(x, 4)` over the exact-rational embedding of floats. -/
def round4 (x : ℚ) : ℚ := (roundHalfEven (x * 10000) : ℚ) / 10000

/-- Python's `round(x, 2)` over the exact-rational embedding of floats. -/
def round2 (x : ℚ) : ℚ := (roundHalfEven (x * 100) : ℚ) / 100

/-- The unrounded clamped engagement score `final_ces` computed by
`CESCalculator.calculate` (ces_calculator.py lines 149-176): weighted
normalized productive terms minus penalty terms minus the integrity
penalty, clamped to `[-1, 1]`. -/
def calcScore (m : SessionMetrics) (ins : FusionInsights) : ℚ :=
  let kpm_norm := pyNormalize ins.effective_kpm 5 24
  let ad_norm := pyNormalize ins.effective_ad (1/20) (1/2)
  let ir_norm := pyNormalize ins.effective_ir 0 (3/5)
  let fvc_norm := pyNormalize m.focus_violation_count 0 10
  let productive_score := (7/20) * kpm_norm + (1/4) * ad_norm
  let penalty_score := (3/20) * ir_norm + (1/4) * fvc_norm
  qmax (-1) (qmin 1 (productive_score - penalty_score - ins.integrity_penalty))

/-- The fields of the dict returned by `CESCalculator.calculate`
(ces_calculator.py lines 178-202) that the claims refer to. -/
structure CESOutput where
  kpm : ℚ
  ad : ℚ
  ir : ℚ
  ces : ℚ
  classification : String
  provenance : ProvenanceState
  cognitive : CognitiveState
deriving DecidableEq, Repr

/-- `CESCalculator.calculate`: the returned `ces` is the clamped score
rounded to 4 decimal places, while `classification` is computed from the
unrounded clamped score. -/
def calculate (m : SessionMetrics) (ins : FusionInsights) : CESOutput where
  kpm := round2 ins.effective_kpm
  ad := round4 ins.effective_ad
  ir := round2 ins.effective_ir
  ces := round4 (calcScore m ins)
  classification := getLabel (calcScore m ins)
  provenance := ins.provenance_state
  cognitive := ins.cognitive_state

/-- The full scoring pipeline: `DataFusionEngine.analyze` then
`CESCalculator.calculate`. -/
def scorePipeline (m : SessionMetrics) : CESOutput :=
  calculate m (analyze m)

/-! ## Spec-side definitions (for refinement comparisons)

These definitions follow the wording of the specification/claims, to be
compared against the embeddings of the source above. -/

/-- The classification band determined by a ces value, as the claims state
it: High Engagement when `ces > 0.5`, Moderate Engagement when
`0.2 < ces ≤ 0.5`, Low Engagement when `0.0 < ces ≤ 0.2`, Disengaged/At-Risk
when `ces ≤ 0.0`. -/
def bandOf (ces : ℚ) : String :=
  if 1/2 < ces then "High Engagement"
  else if 1/5 < ces then "Moderate Engagement"
  else if 0 < ces then "Low Engagement"
  else "Disengaged/At-Risk"

/-- Min-max normalization to `[0, 1]` with fixed bounds, as the claims
state it (spec wording; no zero-span guard, since all four bound pairs are
non-degenerate). -/
def specMinMax (v lo hi : ℚ) : ℚ := max 0 (min 1 ((v - lo) / (hi - lo)))

/-- The CES formula exactly as claim C3 states it:
`(0.35·K + 0.25·A) − (0.25·F + 0.15·I) − integrity_penalty` clamped to
`[−1, 1]`, with `K, A, I, F` the min-max normalizations of
`effective_kpm`, `effective_ad`, `effective_ir`, `focus_violation_count`
over the fixed bounds KPM `[5, 24]`, AD `[0.05, 0.50]`, IR `[0, 0.60]`,
FVC `[0, 10]`. -/
def cesFormulaSpec (m : SessionMetrics) (ins : FusionInsights) : ℚ :=
  let K := specMinMax ins.effective_kpm 5 24
  let A := specMinMax ins.effective_ad (1/20) (1/2)
  let I := specMinMax ins.effective_ir 0 (3/5)
  let F := specMinMax m.focus_violation_count 0 10
  max (-1) (min 1 ((35/100 * K + 25/100 * A) - (25/100 * F + 15/100 * I)
    - ins.integrity_penalty))

/-! ## Basic facts about the score and rounding -/

theorem pyNormalize_eq_specMinMax (v lo hi : ℚ) (h : hi - lo ≠ 0) :
    pyNormalize v lo hi = specMinMax v lo hi := by
  unfold pyNormalize specMinMax
  rw [if_neg h, qmax_eq_max, qmin_eq_min]

theorem calcScore_mem (m : SessionMetrics) (ins : FusionInsights) :
    -1 ≤ calcScore m ins ∧ calcScore m ins ≤ 1 := by
  unfold calcScore
  rw [qmax_eq_max, qmin_eq_min]
  constructor
  · exact le_max_left _ _
  · exact max_le (by norm_num) (min_le_left _ _)

theorem roundHalfEven_mem_Icc (q : ℚ) (B : ℤ) (h1 : (-B : ℚ) ≤ q) (h2 : q ≤ (B : ℚ)) :
    -B ≤ roundHalfEven q ∧ roundHalfEven q ≤ B := by
  have hfl : -B ≤ Int.floor q := by
    have := Int.floor_le_floor h1
    simpa using this
  have hflB : Int.floor q ≤ B := by
    have := Int.floor_le_floor h2
    simpa using this
  have hup : 1/2 ≤ q - Int.floor q → roundHalfEven q ≤ B := by
    intro hhalf
    have hqne : (Int.floor q : ℚ) < q := by linarith
    have hlt : Int.floor q < B := by
      by_contra hcon
      push_neg at hcon
      have : (B : ℚ) ≤ Int.floor q := by exact_mod_cast hcon
      linarith
    unfold roundHalfEven
    split_ifs <;> omega
  unfold roundHalfEven
  split_ifs with ha hb hc
  · exact ⟨hfl, hflB⟩
  · refine ⟨by omega, ?_⟩
    have := hup (by linarith)
    unfold roundHalfEven at this
    split_ifs at this ; omega
  · exact ⟨hfl, hflB⟩
  · refine ⟨by omega, ?_⟩
    have := hup (by linarith)
    unfold roundHalfEven at this
    split_ifs at this ; omega

theorem round4_mem (x : ℚ) (h1 : -1 ≤ x) (h2 : x ≤ 1) :
    -1 ≤ round4 x ∧ round4 x ≤ 1 := by
  have hb := roundHalfEven_mem_Icc (x * 10000) 10000 (by push_cast; linarith) (by push_cast; linarith)
  unfold round4
  have hcast1 : ((-10000 : ℤ) : ℚ) ≤ (roundHalfEven (x * 10000) : ℚ) := by exact_mod_cast hb.1
  have hcast2 : (roundHalfEven (x * 10000) : ℚ) ≤ ((10000 : ℤ) : ℚ) := by exact_mod_cast hb.2
  constructor
  · rw [le_div_iff₀ (by norm_num : (0:ℚ) < 10000)]
    calc (-1 : ℚ) * 10000 = ((-10000 : ℤ) : ℚ) := by norm_num
    _ ≤ _ := hcast1
  · rw [div_le_iff₀ (by norm_num : (0:ℚ) < 10000)]
    calc (roundHalfEven (x * 10000) : ℚ) ≤ ((10000 : ℤ) : ℚ) := hcast2
    _ = 1 * 10000 := by norm_num

/-! ## Concrete inputs used by counterexamples and witnesses -/

/-- A session whose unrounded clamped score is exactly 0.50004: just above
the High Engagement threshold, but rounding to 4 decimals lands exactly on
0.5. -/
def bandMismatchInput : SessionMetrics where
  duration_minutes := 5525000/2650171
  total_keystrokes := 40
  total_run_attempts := 1
  total_idle_minutes := 0
  focus_violation_count := 0
  net_code_change := 0
  last_edit_size_chars := 0
  last_run_interval_seconds := 0
  is_semantic_change := false
  current_idle_duration := 0
  is_window_focused := true
  last_run_was_error := false
  recent_burst_size_chars := 0

/-- A session whose unrounded clamped score 7/1140 has more than 4 decimal
places, so the returned ces differs from the formula value. -/
def roundingInput : SessionMetrics where
  duration_minutes := 3
  total_keystrokes := 16
  total_run_attempts := 0
  total_idle_minutes := 0
  focus_violation_count := 0
  net_code_change := 0
  last_edit_size_chars := 0
  last_run_interval_seconds := 0
  is_semantic_change := false
  current_idle_duration := 0
  is_window_focused := true
  last_run_was_error := false
  recent_burst_size_chars := 0

/-- A zero-duration session with 10 focus violations and no integrity
penalty. -/
def zeroDurationFvcInput : SessionMetrics where
  duration_minutes := 0
  total_keystrokes := 0
  total_run_attempts := 0
  total_idle_minutes := 0
  focus_violation_count := 10
  net_code_change := 0
  last_edit_size_chars := 0
  last_run_interval_seconds := 0
  is_semantic_change := false
  current_idle_duration := 0
  is_window_focused := true
  last_run_was_error := false
  recent_burst_size_chars := 0

/-- A session the large-insertion check flags as a suspected paste (penalty
0.5) whose keystroke volume then trips the spam check, relabeling it
Spamming while the paste penalty stays. -/
def spamAfterPasteInput : SessionMetrics where
  duration_minutes := 5
  total_keystrokes := 300
  total_run_attempts := 0
  total_idle_minutes := 0
  focus_violation_count := 2
  net_code_change := 10
  last_edit_size_chars := 100
  last_run_interval_seconds := 0
  is_semantic_change := false
  current_idle_duration := 0
  is_window_focused := true
  last_run_was_error := false
  recent_burst_size_chars := 10

/-! ## Claim C2 -/

/-- Claim C2, counterexample.  At `bandMismatchInput` the unrounded clamped
score is 0.50004, so the returned classification is "High Engagement", yet
the returned ces is the rounded value 0.5 whose band is
"Moderate Engagement": the returned classification is not the band of the
returned ces value. -/
theorem returned_band_ne_band_of_returned_ces :
    (scorePipeline bandMismatchInput).classification = "High Engagement" ∧
    (scorePipeline bandMismatchInput).ces = 1/2 ∧
    bandOf ((scorePipeline bandMismatchInput).ces) = "Moderate Engagement" ∧
    (scorePipeline bandMismatchInput).classification ≠
      bandOf ((scorePipeline bandMismatchInput).ces) := by
  norm_num [scorePipeline, calculate, calcScore, analyze, effective_kpm, effective_ad,
    effective_ir, raw_kpm, adjusted_idle_minutes, spamCond1, spamCond2, isBurstTyping,
    efficiency_ratio, integrity2, bulkPasteCond, provenance1, integrity1, largePasteCond,
    keystroke_to_insertion_ratio, pyNormalize, qmin, qmax, round4, round2, roundHalfEven,
    getLabel, bandOf, bandMismatchInput]
  decide

/-- Claim C2 (amended): for every input the returned ces lies in `[-1, 1]`
and equals the unrounded clamped score rounded to 4 decimal places, and
the returned classification is exactly the threshold band of the
*unrounded* clamped score (not, in general, of the returned rounded ces). -/
theorem ces_bounds_and_band_of_unrounded (m : SessionMetrics) :
    (-1 ≤ (scorePipeline m).ces ∧ (scorePipeline m).ces ≤ 1) ∧
    (scorePipeline m).ces = round4 (calcScore m (analyze m)) ∧
    (scorePipeline m).classification = bandOf (calcScore m (analyze m)) := by
  have hmem := calcScore_mem m (analyze m)
  have hround := round4_mem (calcScore m (analyze m)) hmem.1 hmem.2
  refine ⟨?_, rfl, ?_⟩
  · exact hround
  · show getLabel (calcScore m (analyze m)) = bandOf (calcScore m (analyze m))
    unfold getLabel bandOf
    rfl

/-! ## Claim C3 -/

/-- Claim C3, counterexample.  At `roundingInput` the formula value is
7/1140 while the ces returned by `calculate` is the rounded 0.0061; the
returned ces does not equal the claimed formula value. -/
theorem returned_ces_ne_formula :
    cesFormulaSpec roundingInput (analyze roundingInput) = 7/1140 ∧
    (scorePipeline roundingInput).ces = 61/10000 ∧
    (scorePipeline roundingInput).ces ≠
      cesFormulaSpec roundingInput (analyze roundingInput) := by
  norm_num [scorePipeline, calculate, calcScore, analyze, effective_kpm, effective_ad,
    effective_ir, raw_kpm, adjusted_idle_minutes, spamCond1, spamCond2, isBurstTyping,
    efficiency_ratio, integrity2, bulkPasteCond, provenance1, integrity1, largePasteCond,
    keystroke_to_insertion_ratio, pyNormalize, qmin, qmax, round4, round2, roundHalfEven,
    cesFormulaSpec, specMinMax, min_def, max_def, roundingInput]

/-- Claim C3 (amended): for every input, the *unrounded* clamped score
computed by `CESCalculator.calculate` equals the claimed formula
`(0.35·K + 0.25·A) − (0.25·F + 0.15·I) − integrity_penalty` clamped to
`[-1, 1]` with the fixed normalization bounds; the ces the method returns
is that value rounded to 4 decimal places. -/
theorem ces_score_eq_formula (m : SessionMetrics) :
    calcScore m (analyze m) = cesFormulaSpec m (analyze m) ∧
    (scorePipeline m).ces = round4 (cesFormulaSpec m (analyze m)) := by
  have key : calcScore m (analyze m) = cesFormulaSpec m (analyze m) := by
    unfold calcScore cesFormulaSpec
    rw [pyNormalize_eq_specMinMax _ _ _ (by norm_num),
      pyNormalize_eq_specMinMax _ _ _ (by norm_num),
      pyNormalize_eq_specMinMax _ _ _ (by norm_num),
      pyNormalize_eq_specMinMax _ _ _ (by norm_num),
      qmax_eq_max, qmin_eq_min]
    ring_nf
  exact ⟨key, by rw [show (scorePipeline m).ces = round4 (calcScore m (analyze m)) from rfl, key]⟩

/-! ## Claim C5 -/

/-- Claim C5 (confirmed): the cognitive state is Active exactly when the
current idle episode is at most 30 seconds; above 30 seconds it is
Disengagement when unfocused, Reflective Pause when focused after an
error, and Passive Idle when focused without an error; and only in the
reflective-pause case is the current idle episode (current_idle_duration/60
minutes) subtracted from total idle minutes, floored at 0, before the
idle ratio is formed. -/
theorem cognitive_state_and_idle_adjustment (m : SessionMetrics) :
    (analyze m).cognitive_state =
      (if m.current_idle_duration ≤ 30 then CognitiveState.ACTIVE
       else if ¬ m.is_window_focused then CognitiveState.DISENGAGEMENT
       else if m.last_run_was_error then CognitiveState.REFLECTIVE_PAUSE
       else CognitiveState.PASSIVE_IDLE) ∧
    (analyze m).effective_ir =
      (if 0 < m.duration_minutes then
        (if 30 < m.current_idle_duration ∧ m.is_window_focused ∧ m.last_run_was_error
         then max 0 (m.total_idle_minutes - m.current_idle_duration / 60)
         else m.total_idle_minutes) / m.duration_minutes
       else 0) := by
  constructor
  · show cognitiveState m = _
    unfold cognitiveState
    rcases le_or_lt m.current_idle_duration 30 with h | h
    · have h2 : ¬ 30 < m.current_idle_duration := not_lt.mpr h
      rw [if_neg h2, if_pos h]
    · have h2 : ¬ m.current_idle_duration ≤ 30 := not_le.mpr h
      rw [if_pos h, if_neg h2]
  · show effective_ir m = _
    unfold effective_ir adjusted_idle_minutes
    rw [qmax_eq_max]

/-! ## Claim C6 -/

/-- Claim C6, counterexample.  At `zeroDurationFvcInput` (duration 0,
focus_violation_count 10, integrity penalty 0) the pipeline score is
-0.25, while the claimed value `-integrity_penalty` clamped is 0: the
focus-violation term still contributes when duration is 0. -/
theorem duration_zero_ces_depends_on_fvc :
    zeroDurationFvcInput.duration_minutes = 0 ∧
    (analyze zeroDurationFvcInput).integrity_penalty = 0 ∧
    calcScore zeroDurationFvcInput (analyze zeroDurationFvcInput) = -(1/4) ∧
    (scorePipeline zeroDurationFvcInput).ces = -(1/4) ∧
    (scorePipeline zeroDurationFvcInput).ces ≠
      max (-1) (min 1 (-(analyze zeroDurationFvcInput).integrity_penalty)) := by
  norm_num [scorePipeline, calculate, calcScore, analyze, effective_kpm, effective_ad,
    effective_ir, raw_kpm, adjusted_idle_minutes, spamCond1, spamCond2, isBurstTyping,
    efficiency_ratio, integrity2, bulkPasteCond, provenance1, integrity1, largePasteCond,
    keystroke_to_insertion_ratio, pyNormalize, qmin, qmax, round4, round2, roundHalfEven,
    min_def, max_def, zeroDurationFvcInput]

/-- Claim C6 (amended): when duration_minutes = 0 the three effective
metrics are all 0 and the unrounded clamped score equals
`-(0.25 · normalized focus_violation_count) - integrity_penalty` clamped
to `[-1, 1]`; it reduces to `-integrity_penalty` clamped only when the
normalized focus-violation term vanishes. -/
theorem duration_zero_effective_metrics_and_ces (m : SessionMetrics)
    (h : m.duration_minutes = 0) :
    (analyze m).effective_kpm = 0 ∧ (analyze m).effective_ad = 0 ∧
    (analyze m).effective_ir = 0 ∧
    calcScore m (analyze m) =
      max (-1) (min 1 (-(1/4 * pyNormalize m.focus_violation_count 0 10)
        - (analyze m).integrity_penalty)) := by
  have hdur : ¬ (0 < m.duration_minutes) := by rw [h]; exact lt_irrefl 0
  have hkpm0 : raw_kpm m = 0 := by unfold raw_kpm; rw [if_neg hdur]
  have hkpm : (analyze m).effective_kpm = 0 := by
    show effective_kpm m = 0
    unfold effective_kpm
    split_ifs <;> simp [hkpm0]
  have had : (analyze m).effective_ad = 0 := by
    show effective_ad m = 0
    unfold effective_ad; rw [if_neg hdur]
  have hir : (analyze m).effective_ir = 0 := by
    show effective_ir m = 0
    unfold effective_ir; rw [if_neg hdur]
  refine ⟨hkpm, had, hir, ?_⟩
  unfold calcScore
  rw [hkpm, had, hir, qmax_eq_max, qmin_eq_min]
  have h1 : pyNormalize 0 5 24 = 0 := by
    unfold pyNormalize qmax qmin; norm_num
  have h2 : pyNormalize 0 (1/20) (1/2) = 0 := by
    unfold pyNormalize qmax qmin; norm_num
  have h3 : pyNormalize 0 0 (3/5) = 0 := by
    unfold pyNormalize qmax qmin; norm_num
  rw [h1, h2, h3]
  ring_nf

/-- Claim C6 witness: the amended statement instantiated at
`zeroDurationFvcInput`. -/
theorem duration_zero_effective_metrics_and_ces_witness :
    (analyze zeroDurationFvcInput).effective_kpm = 0 ∧
    (analyze zeroDurationFvcInput).effective_ad = 0 ∧
    (analyze zeroDurationFvcInput).effective_ir = 0 ∧
    calcScore zeroDurationFvcInput (analyze zeroDurationFvcInput) =
      max (-1) (min 1 (-(1/4 * pyNormalize zeroDurationFvcInput.focus_violation_count 0 10)
        - (analyze zeroDurationFvcInput).integrity_penalty)) :=
  duration_zero_effective_metrics_and_ces zeroDurationFvcInput rfl

/-! ## Claim C10 -/

/-- Claim C10 (confirmed): the integrity penalty is always exactly 0 or
exactly 0.5, and at `spamAfterPasteInput` the spam check reclassifies a
suspected-paste session to Spamming while the 0.5 paste penalty remains
attached to the result. -/
theorem integrity_penalty_two_valued_and_spam_carryover :
    (∀ m : SessionMetrics,
      (analyze m).integrity_penalty = 0 ∨ (analyze m).integrity_penalty = 1/2) ∧
    ((analyze spamAfterPasteInput).provenance_state = ProvenanceState.SPAMMING ∧
     (analyze spamAfterPasteInput).integrity_penalty = 1/2) := by
  constructor
  · intro m
    show integrity2 m = 0 ∨ integrity2 m = 1/2
    unfold integrity2 integrity1
    split_ifs
    · right; rfl
    · right; rfl
    · left; rfl
  · norm_num [analyze, provenance3, spamCond1, spamCond2, isBurstTyping, efficiency_ratio,
      integrity2, bulkPasteCond, provenance1, integrity1, largePasteCond,
      keystroke_to_insertion_ratio, spamAfterPasteInput]

/-! ## Character-level string model

Python strings are modelled as `List Char`; `str.strip`, `str.lower` and
`str.split` are modelled character by character (over the ASCII whitespace
set of Python's `\\s`/`strip`). -/

/-- ASCII whitespace (space, tab, newline, carriage return, vertical tab,
form feed). -/
def isWs (c : Char) : Bool :=
  c = Char.ofNat 32 || c = Char.ofNat 9 || c = Char.ofNat 10 ||
  c = Char.ofNat 13 || c = Char.ofNat 11 || c = Char.ofNat 12

/-- Drop leading whitespace. -/
def dropWs : List Char → List Char
  | [] => []
  | c :: cs => if isWs c then dropWs cs else c :: cs

/-- Python `str.strip()`: drop leading and trailing whitespace. -/
def trimChars (s : List Char) : List Char :=
  (dropWs ((dropWs s).reverse)).reverse

/-- Python `str.lower()` on ASCII letters. -/
def toLowerAscii (c : Char) : Char :=
  if 65 ≤ c.toNat ∧ c.toNat ≤ 90 then Char.ofNat (c.toNat + 32) else c

/-- Lowercase a whole string. -/
def lowerChars (s : List Char) : List Char := s.map toLowerAscii

/-- Python `str.split(sep)` with a one-character separator: split on every
occurrence, keeping empty parts. -/
def splitOnComma : List Char → List (List Char)
  | [] => [[]]
  | c :: cs =>
    if c = ',' then [] :: splitOnComma cs
    else
      match splitOnComma cs with
      | [] => [[c]]
      | t :: ts => (c :: t) :: ts

theorem splitOnComma_ne_nil (s : List Char) : splitOnComma s ≠ [] := by
  induction s with
  | nil => simp [splitOnComma]
  | cons c cs ih =>
    simp only [splitOnComma]
    split_ifs
    · simp
    · rcases h : splitOnComma cs with _ | ⟨t, ts⟩
      · exact absurd h ih
      · simp

theorem splitOnComma_no_comma (s : List Char) :
    ∀ p ∈ splitOnComma s, (',' : Char) ∉ p := by
  induction s with
  | nil => intro p hp; simp [splitOnComma] at hp; simp [hp]
  | cons c cs ih =>
    intro p hp
    simp only [splitOnComma] at hp
    split_ifs at hp with hc
    · rcases List.mem_cons.mp hp with h1 | h1
      · simp [h1]
      · exact ih p h1
    · rcases h : splitOnComma cs with _ | ⟨t, ts⟩
      · exact absurd h (splitOnComma_ne_nil cs)
      · rw [h] at hp
        rcases List.mem_cons.mp hp with h1 | h1
        · subst h1
          intro hmem
          rcases List.mem_cons.mp hmem with h2 | h2
          · exact hc h2.symm
          · exact ih t (by rw [h]; exact List.mem_cons_self t ts) h2
        · exact ih p (by rw [h]; exact List.mem_cons_of_mem t h1)

theorem mem_dropWs (s : List Char) (a : Char) (h : a ∈ dropWs s) : a ∈ s := by
  induction s with
  | nil => simp [dropWs] at h
  | cons c cs ih =>
    simp only [dropWs] at h
    split_ifs at h
    · exact List.mem_cons_of_mem c (ih h)
    · exact h

theorem mem_trimChars (s : List Char) (a : Char) (h : a ∈ trimChars s) : a ∈ s := by
  unfold trimChars at h
  rw [List.mem_reverse] at h
  have h2 := mem_dropWs _ _ h
  rw [List.mem_reverse] at h2
  exact mem_dropWs _ _ h2

/-! ## Test-input argument parsers
(rbAI_backend python_test_validator.py lines 75-101,
rbai_server java_test_validator.py lines 116-141) -/

/-- `parse_test_input`: empty or case-insensitive `none` yield no
arguments; otherwise split on every comma and strip each piece. -/
def parse_test_input (s : List Char) : List (List Char) :=
  if trimChars s = [] then []
  else if lowerChars (trimChars s) = ("none".toList) then []
  else (splitOnComma s).map trimChars

/-- `parse_java_test_input`: textually the same algorithm as
`parse_test_input`. -/
def parse_java_test_input (s : List Char) : List (List Char) :=
  if trimChars s = [] then []
  else if lowerChars (trimChars s) = ("none".toList) then []
  else (splitOnComma s).map trimChars

/-! ## Claim C4 -/

/-- Claim C4, counterexample.  On the literal `"a,b"` (a quoted string
containing a comma) both parsers split at the comma inside the quotes,
producing two tokens instead of the single quoted token the claim
requires; and on `5 , 3` the surrounding spaces are stripped, so tokens
are not preserved byte-for-byte. -/
theorem comma_inside_quotes_splits :
    parse_test_input (("\"a,b\"").toList) = [("\"a").toList, ("b\"").toList] ∧
    parse_test_input (("\"a,b\"").toList) ≠ [("\"a,b\"").toList] ∧
    parse_java_test_input (("\"a,b\"").toList) ≠ [("\"a,b\"").toList] ∧
    parse_test_input (("5 , 3").toList) = [("5").toList, ("3").toList] := by
  decide

/-- Claim C4 (amended): the two parsers are the same function; the empty
(after stripping) literal and the case-insensitive literal `none` are
exactly the inputs yielding zero arguments; otherwise the literal is split
at EVERY comma - including commas inside quotes or brackets, so no token
ever contains a comma - and each token is stripped of leading and trailing
whitespace (tokens are otherwise preserved). -/
theorem parse_splits_every_comma_and_strips (s : List Char) :
    parse_test_input s = parse_java_test_input s ∧
    (parse_test_input s = [] ↔
      (trimChars s = [] ∨ lowerChars (trimChars s) = ("none".toList))) ∧
    (∀ t ∈ parse_test_input s, (',' : Char) ∉ t) ∧
    (trimChars s ≠ [] → lowerChars (trimChars s) ≠ ("none".toList) →
      parse_test_input s = (splitOnComma s).map trimChars) := by
  refine ⟨rfl, ?_, ?_, ?_⟩
  · unfold parse_test_input
    split_ifs with h1 h2
    · simp [h1]
    · simp [h1, h2]
    · simp only [List.map_eq_nil_iff]
      constructor
      · intro h; exact absurd h (splitOnComma_ne_nil s)
      · intro h; exact absurd h (by tauto)
  · intro t ht
    unfold parse_test_input at ht
    split_ifs at ht
    · simp at ht
    · simp at ht
    · rcases List.mem_map.mp ht with ⟨p, hp, rfl⟩
      intro hmem
      exact splitOnComma_no_comma s p hp (mem_trimChars p _ hmem)
  · intro h1 h2
    unfold parse_test_input
    rw [if_neg h1, if_neg h2]

/-- Claim C4 witness: the amended statement instantiated at the literal
`5, 3`: the parsed token `5` contains no comma, and the parse is the
stripped comma-split of the literal. -/
theorem parse_splits_witness :
    ((',' : Char) ∉ (("5").toList)) ∧
    parse_test_input (("5, 3").toList) =
      (splitOnComma (("5, 3").toList)).map trimChars :=
  ⟨(parse_splits_every_comma_and_strips (("5, 3").toList)).2.2.1 (("5").toList) (by decide),
   (parse_splits_every_comma_and_strips (("5, 3").toList)).2.2.2 (by decide) (by decide)⟩

/-! ## Strip-user-main source transforms
(python_test_validator.py lines 10-28, java_test_validator.py lines 10-51)

The Python transform removes everything from the leftmost match of the
regex `\\s*if\\s+__name__\\s*==\\s*["\x27]__main__["\x27]\\s*:.*` (DOTALL) to the
end of the string.  Every alternation boundary in that regex separates
whitespace from a non-whitespace literal, so the backtracking regex is
equivalent to the deterministic maximal-munch matcher below. -/

/-- Consume an exact literal from the front of the stream. -/
def expectLit : List Char → List Char → Option (List Char)
  | [], s => some s
  | _ :: _, [] => none
  | c :: cs, d :: ds => if c = d then expectLit cs ds else none

/-- Consume `\\s+` (at least one whitespace char, maximal munch). -/
def ws1 : List Char → Option (List Char)
  | [] => none
  | c :: cs => if isWs c then some (dropWs cs) else none

/-- Consume one quote character (`"` or `\x27`). -/
def quote1 : List Char → Option (List Char)
  | [] => none
  | c :: cs => if c = Char.ofNat 34 || c = Char.ofNat 39 then some cs else none

/-- Matcher for the marker core `if\\s+__name__\\s*==\\s*["\x27]__main__["\x27]\\s*:`. -/
def pyMarkerCore (s : List Char) : Option (List Char) :=
  (expectLit (("if").toList) s).bind fun s1 =>
  (ws1 s1).bind fun s2 =>
  (expectLit (("__name__").toList) s2).bind fun s3 =>
  (expectLit (("==").toList) (dropWs s3)).bind fun s4 =>
  (quote1 (dropWs s4)).bind fun s5 =>
  (expectLit (("__main__").toList) s5).bind fun s6 =>
  (quote1 s6).bind fun s7 =>
  expectLit ((":").toList) (dropWs s7)

/-- The full marker (with its leading `\\s*`) matches at the start of `s`. -/
def pyMarkerAt (s : List Char) : Bool := (pyMarkerCore (dropWs s)).isSome

/-- Index of the leftmost match of the marker (`re.search` semantics). -/
def findPyMarker : List Char → Option Nat
  | [] => none
  | c :: cs =>
    if pyMarkerAt (c :: cs) then some 0
    else (findPyMarker cs).map (fun n => n + 1)

/-- `strip_user_main_block`: remove from the leftmost marker match to the
end of the string (the trailing `.*` with DOTALL eats the rest). -/
def strip_user_main_block (s : List Char) : List Char :=
  match findPyMarker s with
  | none => s
  | some p => s.take p

/-- Java `\\w` (ASCII word character). -/
def wordChar (c : Char) : Bool :=
  (48 ≤ c.toNat && c.toNat ≤ 57) || (65 ≤ c.toNat && c.toNat ≤ 90) ||
  (97 ≤ c.toNat && c.toNat ≤ 122) || c = Char.ofNat 95

/-- Drop leading word characters. -/
def dropWord : List Char → List Char
  | [] => []
  | c :: cs => if wordChar c then dropWord cs else c :: cs

/-- Consume `\\w+` (maximal munch). -/
def word1 : List Char → Option (List Char)
  | [] => none
  | c :: cs => if wordChar c then some (dropWord cs) else none

/-- First half of the Java main-method header regex:
`public\\s+static\\s+void\\s+main\\s*\\(`. -/
def javaMainHeaderA (s : List Char) : Option (List Char) :=
  (expectLit (("public").toList) s).bind fun s1 =>
  (ws1 s1).bind fun s2 =>
  (expectLit (("static").toList) s2).bind fun s3 =>
  (ws1 s3).bind fun s4 =>
  (expectLit (("void").toList) s4).bind fun s5 =>
  (ws1 s5).bind fun s6 =>
  (expectLit (("main").toList) s6).bind fun s7 =>
  expectLit (("(").toList) (dropWs s7)

/-- Second half of the Java main-method header regex:
`\\s*String\\s*\\[\\s*\\]\\s+\\w+\\s*\\)\\s*\x7b`. -/
def javaMainHeaderB (s8 : List Char) : Option (List Char) :=
  (expectLit (("String").toList) (dropWs s8)).bind fun s9 =>
  (expectLit (("[").toList) (dropWs s9)).bind fun s10 =>
  (expectLit (("]").toList) (dropWs s10)).bind fun s11 =>
  (ws1 s11).bind fun s12 =>
  (word1 s12).bind fun s13 =>
  (expectLit ((")").toList) (dropWs s13)).bind fun s14 =>
  expectLit (("\x7b").toList) (dropWs s14)

/-- Matcher for the Java main-method header regex
`public\\s+static\\s+void\\s+main\\s*\\(\\s*String\\s*\\[\\s*\\]\\s+\\w+\\s*\\)\\s*\x7b`. -/
def javaMainHeader (s : List Char) : Option (List Char) :=
  (javaMainHeaderA s).bind javaMainHeaderB

/-- Leftmost match of the Java header: start index and the stream just
after the opening brace. -/
def findJavaHeader : List Char → Option (Nat × List Char)
  | [] => none
  | c :: cs =>
    match javaMainHeader (c :: cs) with
    | some rest => some (0, rest)
    | none => (findJavaHeader cs).map (fun pr => (pr.1 + 1, pr.2))

/-- Brace counting from just after the opening brace (count starts at 1);
returns the stream just after the matching closing brace, or `none` when
braces never rebalance. -/
def braceScan : List Char → Nat → Option (List Char)
  | s, 0 => some s
  | [], _ + 1 => none
  | c :: cs, k + 1 =>
    braceScan cs
      (if c = Char.ofNat 123 then k + 2 else if c = Char.ofNat 125 then k else k + 1)

/-- `strip_user_main_method`: remove the first main-method header and its
brace-balanced body; return the input unchanged when there is no header or
braces never rebalance. -/
def strip_user_main_method (s : List Char) : List Char :=
  match findJavaHeader s with
  | none => s
  | some (start, rest) =>
    match braceScan rest 1 with
    | none => s
    | some tail => s.take start ++ tail

/-! ## Append-stability of the matchers

A successful marker match only reads a prefix of the stream, so success is
preserved when the stream is extended on the right.  This is the key fact
behind idempotence of the Python strip. -/

theorem expectLit_some_append (l t r ext : List Char) (h : expectLit l t = some r) :
    expectLit l (t ++ ext) = some (r ++ ext) := by
  induction l generalizing t with
  | nil =>
    simp only [expectLit, Option.some.injEq] at h
    subst h
    simp [expectLit]
  | cons c cs ih =>
    cases t with
    | nil => simp [expectLit] at h
    | cons d ds =>
      simp only [expectLit, List.cons_append] at h ⊢
      split_ifs at h ⊢ with hc
      exact ih ds h

theorem expectLit_arg_ne_nil (l t r : List Char) (hl : l ≠ []) (h : expectLit l t = some r) :
    t ≠ [] := by
  intro he
  subst he
  cases l with
  | nil => exact hl rfl
  | cons c cs => simp [expectLit] at h

theorem quote1_some_append (t r ext : List Char) (h : quote1 t = some r) :
    quote1 (t ++ ext) = some (r ++ ext) := by
  cases t with
  | nil => simp [quote1] at h
  | cons c cs =>
    simp only [quote1, List.cons_append] at h ⊢
    split_ifs at h ⊢ with hc
    simp only [Option.some.injEq] at h
    subst h
    rfl

theorem quote1_arg_ne_nil (t r : List Char) (h : quote1 t = some r) : t ≠ [] := by
  intro he
  subst he
  simp [quote1] at h

theorem dropWs_append_of_ne (t ext : List Char) (h : dropWs t ≠ []) :
    dropWs (t ++ ext) = dropWs t ++ ext := by
  induction t with
  | nil => exact absurd rfl h
  | cons c cs ih =>
    simp only [dropWs, List.cons_append] at h ⊢
    split_ifs at h ⊢ with hc
    · exact ih h
    · rfl

theorem ws1_some_append (t r ext : List Char) (h : ws1 t = some r) (hr : r ≠ []) :
    ws1 (t ++ ext) = some (r ++ ext) := by
  cases t with
  | nil => simp [ws1] at h
  | cons c cs =>
    simp only [ws1, List.cons_append] at h ⊢
    split_ifs at h ⊢ with hc
    simp only [Option.some.injEq] at h
    subst h
    rw [dropWs_append_of_ne cs ext hr]

theorem pyMarkerCore_some_append (t r ext : List Char) (h : pyMarkerCore t = some r) :
    pyMarkerCore (t ++ ext) = some (r ++ ext) := by
  simp only [pyMarkerCore, Option.bind_eq_some] at h
  obtain ⟨s1, h1, s2, h2, s3, h3, s4, h4, s5, h5, s6, h6, s7, h7, h8⟩ := h
  have hs2 : s2 ≠ [] := expectLit_arg_ne_nil _ _ _ (by decide) h3
  have hd3 : dropWs s3 ≠ [] := expectLit_arg_ne_nil _ _ _ (by decide) h4
  have hd4 : dropWs s4 ≠ [] := quote1_arg_ne_nil _ _ h5
  have hd7 : dropWs s7 ≠ [] := expectLit_arg_ne_nil _ _ _ (by decide) h8
  simp only [pyMarkerCore, Option.bind_eq_some]
  refine ⟨s1 ++ ext, expectLit_some_append _ _ _ _ h1,
    s2 ++ ext, ws1_some_append _ _ _ h2 hs2,
    s3 ++ ext, expectLit_some_append _ _ _ _ h3,
    s4 ++ ext, ?_, s5 ++ ext, ?_, s6 ++ ext, expectLit_some_append _ _ _ _ h6,
    s7 ++ ext, quote1_some_append _ _ _ h7, ?_⟩
  · rw [dropWs_append_of_ne _ _ hd3]
    exact expectLit_some_append _ _ _ _ h4
  · rw [dropWs_append_of_ne _ _ hd4]
    exact quote1_some_append _ _ _ h5
  · rw [dropWs_append_of_ne _ _ hd7]
    exact expectLit_some_append _ _ _ _ h8

theorem pyMarkerAt_append (s ext : List Char) (h : pyMarkerAt s = true) :
    pyMarkerAt (s ++ ext) = true := by
  unfold pyMarkerAt at h ⊢
  rw [Option.isSome_iff_exists] at h ⊢
  obtain ⟨r, hr⟩ := h
  have hne : dropWs s ≠ [] := by
    intro h0
    rw [h0] at hr
    exact absurd hr (by simp [pyMarkerCore, expectLit])
  rw [dropWs_append_of_ne s ext hne]
  exact ⟨r ++ ext, pyMarkerCore_some_append _ _ ext hr⟩

/-! ## Leftmost-match structure of findPyMarker -/

theorem findPyMarker_some_spec (s : List Char) (p : Nat) (h : findPyMarker s = some p) :
    pyMarkerAt (s.drop p) = true ∧ ∀ j, j < p → pyMarkerAt (s.drop j) = false := by
  induction s generalizing p with
  | nil => simp [findPyMarker] at h
  | cons c cs ih =>
    simp only [findPyMarker] at h
    split_ifs at h with hm
    · simp only [Option.some.injEq] at h
      subst h
      exact ⟨hm, by intro j hj; omega⟩
    · rw [Option.map_eq_some'] at h
      obtain ⟨q, hq, rfl⟩ := h
      obtain ⟨ha, hb⟩ := ih q hq
      refine ⟨ha, ?_⟩
      intro j hj
      cases j with
      | zero =>
        simp only [List.drop_zero]
        simp only [Bool.not_eq_true] at hm
        exact hm
      | succ k => exact hb k (by omega)

theorem findPyMarker_none_spec (s : List Char) (h : findPyMarker s = none) (j : Nat) :
    pyMarkerAt (s.drop j) = false := by
  induction s generalizing j with
  | nil =>
    rw [List.drop_nil]
    decide
  | cons c cs ih =>
    simp only [findPyMarker] at h
    split_ifs at h with hm
    rw [Option.map_eq_none'] at h
    cases j with
    | zero =>
      simp only [List.drop_zero]
      simp only [Bool.not_eq_true] at hm
      exact hm
    | succ k => exact ih h k

/-! ## Claim C9 -/

theorem strip_user_main_block_idem (s : List Char) :
    strip_user_main_block (strip_user_main_block s) = strip_user_main_block s := by
  cases hf : findPyMarker s with
  | none => simp [strip_user_main_block, hf]
  | some p =>
    have hstrip : strip_user_main_block s = s.take p := by
      simp [strip_user_main_block, hf]
    have hnone : findPyMarker (s.take p) = none := by
      cases hq : findPyMarker (s.take p) with
      | none => rfl
      | some q =>
        exfalso
        have hspec := findPyMarker_some_spec _ _ hq
        have hsspec := findPyMarker_some_spec _ _ hf
        have hqlt : q < (s.take p).length := by
          by_contra hcon
          push_neg at hcon
          rw [List.drop_eq_nil_of_le hcon] at hspec
          exact absurd hspec.1 (by decide)
        have hqp : q < p := lt_of_lt_of_le hqlt (by
          have := List.length_take_le p s
          omega)
        have hsplit : s.drop q = (s.take p).drop q ++ s.drop p := by
          conv_lhs => rw [← List.take_append_drop p s]
          rw [List.drop_append_of_le_length (le_of_lt hqlt)]
        have hmono := pyMarkerAt_append _ (s.drop p) hspec.1
        rw [← hsplit] at hmono
        rw [hsspec.2 q hqp] at hmono
        exact Bool.false_ne_true hmono
    rw [hstrip]
    simp [strip_user_main_block, hnone]

/-- A Java source with two main methods: the transform removes only the
first one, so a second application removes the second. -/
def twoMainsJavaInput : List Char :=
  ("public static void main(String[] a)\x7b\x7dpublic static void main(String[] b)\x7b\x7d").toList

/-- Claim C9, counterexample.  `strip_user_main_method` is not idempotent:
on a source containing two main methods the first application removes only
the first one, and applying the transform to its own output removes the
second as well, changing the output again. -/
theorem strip_java_main_not_idempotent :
    strip_user_main_method (strip_user_main_method twoMainsJavaInput) ≠
      strip_user_main_method twoMainsJavaInput := by
  decide

/-- Claim C9 (amended): the Python transform `strip_user_main_block` is
idempotent for every source string; the Java transform
`strip_user_main_method` is idempotent on every source whose stripped
output contains no main-method header match (in particular whenever the
source has at most one main method and its removal does not reconstitute a
header), but not in general: on a source with two complete main methods
the second application strips again (see the counterexample). -/
theorem strip_user_main_idempotence :
    (∀ s : List Char,
      strip_user_main_block (strip_user_main_block s) = strip_user_main_block s) ∧
    (∀ s : List Char, findJavaHeader (strip_user_main_method s) = none →
      strip_user_main_method (strip_user_main_method s) = strip_user_main_method s) := by
  refine ⟨strip_user_main_block_idem, ?_⟩
  intro s h
  set t := strip_user_main_method s with ht
  simp [strip_user_main_method, h]

/-- Claim C9 witness: the amended Java statement instantiated at the
one-character source `x`, whose stripped form has no header match. -/
theorem strip_user_main_idempotence_witness :
    strip_user_main_method (strip_user_main_method (("x").toList)) =
      strip_user_main_method (("x").toList) :=
  strip_user_main_idempotence.2 (("x").toList) (by decide)

/-! ## Execution service: test-validation loops
(python_executor.py lines 327-401, java_executor.py lines 465-538,
executor.py lines 231-305)

`execute_code`/`execute` run Docker containers; their results are
abstracted as per-test `ExecResult` values attached to the test list, and
the pure aggregation loops of the source are modelled exactly. -/

/-- Result of one sandboxed execution (`ExecutionResult` of
base_executor.py, without the per-test list). -/
structure ExecResult where
  status : String
  output : List Char
  error : List Char
  execution_time : ℚ
  exit_code : Int
deriving DecidableEq, Repr

/-- One test case (`input`, `expected_output`). -/
structure TestCase where
  input : List Char
  expected_output : List Char
deriving DecidableEq, Repr

/-- What one iteration of `execute_with_tests` observes for its test:
either `create_test_code` failed (no execution happens) or the generated
wrapper was executed with the given result. -/
inductive TestOutcome where
  | genFail (err : List Char)
  | executed (r : ExecResult)
deriving DecidableEq, Repr

/-- One entry of the `test_results` list. -/
structure PerTestResult where
  test_number : Nat
  passed : Bool
  input : List Char
  expected_output : List Char
  actual_output : List Char
  error : Option (List Char)
deriving DecidableEq, Repr

/-- The aggregate `ExecutionResult` with its per-test list. -/
structure AggResult where
  status : String
  output : List Char
  error : List Char
  execution_time : ℚ
  exit_code : Int
  test_results : List PerTestResult
deriving DecidableEq, Repr

/-- The verdict recorded for one test by the Python/Java executors:
output (stripped) equals expected (stripped) and the execution status is
`success`; a code-generation failure never passes. -/
def outcomePassed : TestCase × TestOutcome → Bool
  | (_, TestOutcome.genFail _) => false
  | (tc, TestOutcome.executed r) =>
      (trimChars r.output == trimChars tc.expected_output) && (r.status == "success")

/-- Whether the test actually executed. -/
def outcomeExecuted : TestCase × TestOutcome → Bool
  | (_, TestOutcome.genFail _) => false
  | (_, TestOutcome.executed _) => true

/-- Execution time of one test (0 when it never executed). -/
def outcomeTime : TestCase × TestOutcome → ℚ
  | (_, TestOutcome.genFail _) => 0
  | (_, TestOutcome.executed r) => r.execution_time

/-- The loop of `PythonExecutor.execute_with_tests` and
`JavaExecutor.execute_with_tests`: accumulates the verdict list, the
all-passed flag and the last executed result. -/
def pyTestLoop : Nat → List (TestCase × TestOutcome) →
    List PerTestResult × Bool × Option ExecResult
  | _, [] => ([], true, none)
  | i, (tc, TestOutcome.genFail err) :: rest =>
    let res := pyTestLoop (i + 1) rest
    ({ test_number := i + 1, passed := false, input := tc.input,
       expected_output := trimChars tc.expected_output, actual_output := [],
       error := some err } :: res.1,
     false, res.2.2)
  | i, (tc, TestOutcome.executed r) :: rest =>
    let actual := trimChars r.output
    let passed := (actual == trimChars tc.expected_output) && (r.status == "success")
    let res := pyTestLoop (i + 1) rest
    ({ test_number := i + 1, passed := passed, input := tc.input,
       expected_output := trimChars tc.expected_output, actual_output := actual,
       error := if r.error ≠ [] then some r.error else none } :: res.1,
     passed && res.2.1, some (res.2.2.getD r))

/-- `PythonExecutor.execute_with_tests` / `JavaExecutor.execute_with_tests`
after the loop: the last executed result is reused with status
success/failed_tests (the error field cleared when all passed, the
execution_time that of the LAST test), or an `error` result when no test
executed. -/
def executeWithTestsPy (items : List (TestCase × TestOutcome)) : AggResult :=
  let res := pyTestLoop 0 items
  match res.2.2 with
  | some r =>
    { status := if res.2.1 then "success" else "failed_tests"
      output := r.output
      error := if res.2.1 then [] else r.error
      execution_time := r.execution_time
      exit_code := r.exit_code
      test_results := res.1 }
  | none =>
    { status := "error", output := [],
      error := ("No valid test cases executed").toList,
      execution_time := 0, exit_code := 0, test_results := res.1 }

/-- The verdict of one test in `CodeExecutor._execute_with_tests` (every
test is executed there). -/
def cePassed (p : TestCase × ExecResult) : Bool :=
  (trimChars p.2.output == trimChars p.1.expected_output) && (p.2.status == "success")

/-- The loop of `CodeExecutor._execute_with_tests`: verdicts, all-passed
flag, accumulated total time, last result. -/
def ceTestLoop : Nat → List (TestCase × ExecResult) →
    List PerTestResult × Bool × ℚ × Option ExecResult
  | _, [] => ([], true, 0, none)
  | i, (tc, r) :: rest =>
    let actual := trimChars r.output
    let passed := (actual == trimChars tc.expected_output) && (r.status == "success")
    let res := ceTestLoop (i + 1) rest
    ({ test_number := i + 1, passed := passed, input := tc.input,
       expected_output := trimChars tc.expected_output, actual_output := actual,
       error := if r.error ≠ [] then some r.error else none } :: res.1,
     passed && res.2.1, r.execution_time + res.2.2.1, some (res.2.2.2.getD r))

/-- `CodeExecutor._execute_with_tests` after the loop: status
success/failed_tests with the SUMMED execution time, exit code 0/1, or an
`error` result (exit code -1) when the loop never ran. -/
def executeWithTestsCE (items : List (TestCase × ExecResult)) : AggResult :=
  let res := ceTestLoop 0 items
  match res.2.2.2 with
  | some r =>
    { status := if res.2.1 then "success" else "failed_tests"
      output := r.output
      error := if res.2.1 then [] else r.error
      execution_time := res.2.2.1
      exit_code := if res.2.1 then 0 else 1
      test_results := res.1 }
  | none =>
    { status := "error", output := [],
      error := ("No test cases executed").toList,
      execution_time := 0, exit_code := -1, test_results := res.1 }

/-- The last executed per-test result of the Python/Java loop. -/
def lastExecutedResult (items : List (TestCase × TestOutcome)) : Option ExecResult :=
  (pyTestLoop 0 items).2.2

/-! ## Language dispatch of the execution service
(rbAI_execution_service/main.py lines 46-57 and 166-182) -/

/-- The language registry built at service startup (`EXECUTORS`). -/
def supportedLanguages : List (List Char) := [("java").toList, ("python").toList]

/-- The fields of the `ExecutionResponse` relevant to dispatch (the
timestamp is wall-clock and not modelled). -/
structure ExecutionResponse where
  success : Bool
  status : String
  output : List Char
  error : List Char
  execution_time : ℚ
  exit_code : Int
deriving DecidableEq, Repr

/-- Whether `execute_code` rejects the request up front or hands it to an
executor strategy. -/
inductive DispatchResult where
  | rejected (resp : ExecutionResponse)
  | dispatched (lang : List Char)
deriving DecidableEq, Repr

/-- Python's `str(list(EXECUTORS.keys()))`, the text
`[\x27java\x27, \x27python\x27]` (built character-wise). -/
def supportedRepr : List Char :=
  [Char.ofNat 91, Char.ofNat 39] ++ ("java").toList ++
  [Char.ofNat 39, Char.ofNat 44, Char.ofNat 32, Char.ofNat 39] ++
  ("python").toList ++ [Char.ofNat 39, Char.ofNat 93]

/-- The language-dispatch prefix of `execute_code` (main.py lines 169-182):
lowercase the tag, look it up in the registry, and reject immediately with
an `error` response when it is absent. -/
def executeDispatch (language : List Char) : DispatchResult :=
  let lang := lowerChars language
  if lang ∈ supportedLanguages then DispatchResult.dispatched lang
  else
    DispatchResult.rejected
      { success := false, status := "error", output := [],
        error := ("Unsupported language: ").toList ++ language ++
          (". Supported: ").toList ++ supportedRepr,
        execution_time := 0, exit_code := -1 }

/-! ## Loop invariants of the test-validation loops -/

theorem pyTestLoop_allPassed (i : Nat) (items : List (TestCase × TestOutcome)) :
    (pyTestLoop i items).2.1 = items.all outcomePassed := by
  induction items generalizing i with
  | nil => rfl
  | cons p rest ih =>
    obtain ⟨tc, o⟩ := p
    cases o with
    | genFail err => simp [pyTestLoop, outcomePassed, ih (i + 1)]
    | executed r => simp [pyTestLoop, outcomePassed, ih (i + 1)]

theorem pyTestLoop_last_isSome (i : Nat) (items : List (TestCase × TestOutcome)) :
    (pyTestLoop i items).2.2.isSome = items.any outcomeExecuted := by
  induction items generalizing i with
  | nil => rfl
  | cons p rest ih =>
    obtain ⟨tc, o⟩ := p
    cases o with
    | genFail err => simp [pyTestLoop, outcomeExecuted, ih (i + 1)]
    | executed r => simp [pyTestLoop, outcomeExecuted]

theorem not_executed_not_passed (p : TestCase × TestOutcome)
    (h : outcomeExecuted p = false) : outcomePassed p = false := by
  obtain ⟨tc, o⟩ := p
  cases o with
  | genFail err => rfl
  | executed r => simp [outcomeExecuted] at h

theorem ceTestLoop_allPassed (i : Nat) (items : List (TestCase × ExecResult)) :
    (ceTestLoop i items).2.1 = items.all cePassed := by
  induction items generalizing i with
  | nil => rfl
  | cons p rest ih =>
    obtain ⟨tc, r⟩ := p
    simp [ceTestLoop, cePassed, ih (i + 1)]

theorem ceTestLoop_time (i : Nat) (items : List (TestCase × ExecResult)) :
    (ceTestLoop i items).2.2.1 = (items.map (fun p => p.2.execution_time)).sum := by
  induction items generalizing i with
  | nil => rfl
  | cons p rest ih =>
    obtain ⟨tc, r⟩ := p
    simp [ceTestLoop, ih (i + 1)]

theorem ceTestLoop_last_isSome (i : Nat) (items : List (TestCase × ExecResult))
    (h : items ≠ []) : (ceTestLoop i items).2.2.2.isSome = true := by
  cases items with
  | nil => exact absurd rfl h
  | cons p rest =>
    obtain ⟨tc, r⟩ := p
    simp [ceTestLoop]

/-! ## Claim C1 -/

/-- Claim C1 (confirmed): with a non-empty test list, the aggregate status
is `success` iff every per-test verdict passed (a verdict passes only when
its execution returned `success`); it is `failed_tests` iff some test
executed but not every verdict passed; and it is `error` iff no test
produced a valid execution.  For `CodeExecutor._execute_with_tests` every
test executes, so the aggregate is `success`/`failed_tests` by the same
rule and never `error`. -/
theorem aggregate_status_spec :
    (∀ items : List (TestCase × TestOutcome), items ≠ [] →
      ((executeWithTestsPy items).status = "success" ↔
        (∀ p ∈ items, outcomePassed p = true)) ∧
      ((executeWithTestsPy items).status = "failed_tests" ↔
        ((∃ p ∈ items, outcomeExecuted p = true) ∧
          ¬ (∀ p ∈ items, outcomePassed p = true))) ∧
      ((executeWithTestsPy items).status = "error" ↔
        ¬ (∃ p ∈ items, outcomeExecuted p = true))) ∧
    (∀ items : List (TestCase × ExecResult), items ≠ [] →
      ((executeWithTestsCE items).status = "success" ↔
        (∀ p ∈ items, cePassed p = true)) ∧
      ((executeWithTestsCE items).status = "failed_tests" ↔
        ¬ (∀ p ∈ items, cePassed p = true)) ∧
      (executeWithTestsCE items).status ≠ "error") := by
  constructor
  · intro items hne
    have hap := pyTestLoop_allPassed 0 items
    have hsome := pyTestLoop_last_isSome 0 items
    rcases hlast : (pyTestLoop 0 items).2.2 with _ | r
    · -- no test executed: aggregate status is "error"
      rw [hlast] at hsome
      have hnoexec : items.any outcomeExecuted = false := hsome.symm
      have hstat : (executeWithTestsPy items).status = "error" := by
        simp [executeWithTestsPy, hlast]
      have hnoex : ¬ ∃ p ∈ items, outcomeExecuted p = true := by
        rw [← List.any_eq_true, hnoexec]
        simp
      have hnall : ¬ (∀ p ∈ items, outcomePassed p = true) := by
        obtain ⟨q, rest, rfl⟩ := List.exists_cons_of_ne_nil hne
        intro hall
        have h1 := hall q (List.mem_cons_self q rest)
        have h2 : outcomeExecuted q = false := by
          by_contra hcon
          exact hnoex ⟨q, List.mem_cons_self q rest, by simpa using hcon⟩
        rw [not_executed_not_passed q h2] at h1
        exact Bool.false_ne_true h1
      refine ⟨?_, ?_, ?_⟩
      · rw [hstat]
        exact ⟨fun hcon => absurd hcon (by decide), fun hall => absurd hall hnall⟩
      · rw [hstat]
        exact ⟨fun hcon => absurd hcon (by decide), fun hc => absurd hc.1 hnoex⟩
      · rw [hstat]
        exact ⟨fun _ => hnoex, fun _ => rfl⟩
    · -- some test executed
      have hex : ∃ p ∈ items, outcomeExecuted p = true := by
        rw [← List.any_eq_true, ← hsome, hlast]
        rfl
      cases hapb : (pyTestLoop 0 items).2.1 with
      | false =>
        have hstat : (executeWithTestsPy items).status = "failed_tests" := by
          simp [executeWithTestsPy, hlast, hapb]
        have hnall : ¬ (∀ p ∈ items, outcomePassed p = true) := by
          rw [← List.all_eq_true, ← hap, hapb]
          exact Bool.false_ne_true
        refine ⟨?_, ?_, ?_⟩
        · rw [hstat]
          exact ⟨fun hcon => absurd hcon (by decide), fun hall => absurd hall hnall⟩
        · rw [hstat]
          exact ⟨fun _ => ⟨hex, hnall⟩, fun _ => rfl⟩
        · rw [hstat]
          exact ⟨fun hcon => absurd hcon (by decide), fun hc => absurd hex hc⟩
      | true =>
        have hstat : (executeWithTestsPy items).status = "success" := by
          simp [executeWithTestsPy, hlast, hapb]
        have hall : ∀ p ∈ items, outcomePassed p = true := by
          rw [← List.all_eq_true, ← hap]
          exact hapb
        refine ⟨?_, ?_, ?_⟩
        · rw [hstat]
          exact ⟨fun _ => hall, fun _ => rfl⟩
        · rw [hstat]
          exact ⟨fun hcon => absurd hcon (by decide), fun hc => absurd hall hc.2⟩
        · rw [hstat]
          exact ⟨fun hcon => absurd hcon (by decide), fun hc => absurd hex hc⟩
  · intro items hne
    have hap := ceTestLoop_allPassed 0 items
    have hsome := ceTestLoop_last_isSome 0 items hne
    rcases hlast : (ceTestLoop 0 items).2.2.2 with _ | r
    · rw [hlast] at hsome
      exact absurd hsome (by decide)
    · cases hapb : (ceTestLoop 0 items).2.1 with
      | false =>
        have hstat : (executeWithTestsCE items).status = "failed_tests" := by
          simp [executeWithTestsCE, hlast, hapb]
        have hnall : ¬ (∀ p ∈ items, cePassed p = true) := by
          rw [← List.all_eq_true, ← hap, hapb]
          exact Bool.false_ne_true
        refine ⟨?_, ?_, ?_⟩
        · rw [hstat]
          exact ⟨fun hcon => absurd hcon (by decide), fun hall => absurd hall hnall⟩
        · rw [hstat]
          exact ⟨fun _ => hnall, fun _ => rfl⟩
        · rw [hstat]
          exact (by decide)
      | true =>
        have hstat : (executeWithTestsCE items).status = "success" := by
          simp [executeWithTestsCE, hlast, hapb]
        have hall : ∀ p ∈ items, cePassed p = true := by
          rw [← List.all_eq_true, ← hap]
          exact hapb
        refine ⟨?_, ?_, ?_⟩
        · rw [hstat]
          exact ⟨fun _ => hall, fun _ => rfl⟩
        · rw [hstat]
          exact ⟨fun hcon => absurd hcon (by decide), fun hc => absurd hall hc⟩
        · rw [hstat]
          exact (by decide)

/-- A passing one-test scenario used by the witnesses of claims C1/C7. -/
def passingCase : TestCase where
  input := ("5, 3").toList
  expected_output := ("8").toList

/-- The passing execution for `passingCase`. -/
def passingRes : ExecResult where
  status := "success"
  output := ("8").toList
  error := []
  execution_time := 1
  exit_code := 0

/-- Claim C1 witness: the status rule instantiated at a one-element test
list whose single test executed and passed. -/
theorem aggregate_status_spec_witness :
    ((executeWithTestsPy [(passingCase, TestOutcome.executed passingRes)]).status = "success" ↔
      (∀ p ∈ [(passingCase, TestOutcome.executed passingRes)], outcomePassed p = true)) ∧
    (executeWithTestsCE [(passingCase, passingRes)]).status ≠ "error" :=
  ⟨(aggregate_status_spec.1 [(passingCase, TestOutcome.executed passingRes)]
      (List.cons_ne_nil _ _)).1,
   (aggregate_status_spec.2 [(passingCase, passingRes)] (List.cons_ne_nil _ _)).2.2⟩

/-! ## Claim C7 -/

/-- Claim C7, counterexample.  A two-test run where each executed test
took 1 second: `PythonExecutor.execute_with_tests` (and the identical
`JavaExecutor.execute_with_tests`) reports execution_time 1 - the time of
the last test - while the sum over executed tests is 2. -/
theorem aggregate_time_not_sum :
    (executeWithTestsPy [(passingCase, TestOutcome.executed passingRes),
        (passingCase, TestOutcome.executed passingRes)]).execution_time = 1 ∧
    (([(passingCase, TestOutcome.executed passingRes),
        (passingCase, TestOutcome.executed passingRes)].filter
      outcomeExecuted).map outcomeTime).sum = 2 ∧
    (executeWithTestsPy [(passingCase, TestOutcome.executed passingRes),
        (passingCase, TestOutcome.executed passingRes)]).execution_time ≠
      (([(passingCase, TestOutcome.executed passingRes),
          (passingCase, TestOutcome.executed passingRes)].filter
        outcomeExecuted).map outcomeTime).sum := by
  norm_num [executeWithTestsPy, pyTestLoop, outcomeTime, outcomeExecuted,
    passingCase, passingRes]

/-- Claim C7 (amended): `CodeExecutor._execute_with_tests` reports the sum
of the per-test execution times; `PythonExecutor.execute_with_tests` and
`JavaExecutor.execute_with_tests` instead report the execution_time of the
LAST executed test (0 when no test executed). -/
theorem aggregate_time_spec :
    (∀ items : List (TestCase × ExecResult), items ≠ [] →
      (executeWithTestsCE items).execution_time =
        (items.map (fun p => p.2.execution_time)).sum) ∧
    (∀ items : List (TestCase × TestOutcome),
      (executeWithTestsPy items).execution_time =
        (lastExecutedResult items).elim 0 (fun r => r.execution_time)) := by
  constructor
  · intro items hne
    have htime := ceTestLoop_time 0 items
    have hsome := ceTestLoop_last_isSome 0 items hne
    rcases hlast : (ceTestLoop 0 items).2.2.2 with _ | r
    · rw [hlast] at hsome
      exact absurd hsome (by decide)
    · rw [← htime]
      simp [executeWithTestsCE, hlast]
  · intro items
    unfold executeWithTestsPy lastExecutedResult
    rcases hlast : (pyTestLoop 0 items).2.2 with _ | r
    · simp [hlast]
    · simp [hlast]

/-- Claim C7 witness: the amended sum statement instantiated at a
one-element test list with execution time 1. -/
theorem aggregate_time_spec_witness :
    (executeWithTestsCE [(passingCase, passingRes)]).execution_time =
      (([(passingCase, passingRes)]).map (fun p => p.2.execution_time)).sum :=
  aggregate_time_spec.1 [(passingCase, passingRes)] (List.cons_ne_nil _ _)

/-! ## Claim C8 -/

/-- Claim C8 (confirmed): when the lowercased language tag is not in the
registry, `execute_code` rejects the request up front with an `error`
response carrying exit code -1, execution_time 0, and an error message
that contains every supported language tag. -/
theorem unsupported_language_rejected (language : List Char)
    (h : lowerChars language ∉ supportedLanguages) :
    ∃ resp, executeDispatch language = DispatchResult.rejected resp ∧
      resp.status = "error" ∧ resp.success = false ∧ resp.exit_code = -1 ∧
      resp.execution_time = 0 ∧
      (∀ tag ∈ supportedLanguages, tag <:+: resp.error) := by
  have hd : executeDispatch language = DispatchResult.rejected
      { success := false, status := "error", output := [],
        error := ("Unsupported language: ").toList ++ language ++
          (". Supported: ").toList ++ supportedRepr,
        execution_time := 0, exit_code := -1 } := by
    unfold executeDispatch
    rw [if_neg h]
  refine ⟨_, hd, rfl, rfl, rfl, rfl, ?_⟩
  intro tag htag
  have hsfx : supportedRepr <:+:
      (("Unsupported language: ").toList ++ language ++
        (". Supported: ").toList ++ supportedRepr) :=
    ⟨("Unsupported language: ").toList ++ language ++ (". Supported: ").toList, [],
      by simp⟩
  have hin : tag <:+: supportedRepr := by
    rcases List.mem_cons.mp htag with h1 | h1
    · subst h1; decide
    · rcases List.mem_cons.mp h1 with h2 | h2
      · subst h2; decide
      · simp at h2
  exact hin.trans hsfx

/-- Claim C8 witness: the rejection instantiated at the unsupported tag
`ruby`. -/
theorem unsupported_language_rejected_witness :
    ∃ resp, executeDispatch (("ruby").toList) = DispatchResult.rejected resp ∧
      resp.status = "error" ∧ resp.success = false ∧ resp.exit_code = -1 ∧
      resp.execution_time = 0 ∧
      (∀ tag ∈ supportedLanguages, tag <:+: resp.error) :=
  unsupported_language_rejected (("ruby").toList) (by decide)

end RbAI
